import Mathlib

namespace FleschModel

/-!
Verification of the Flesch readability analyzer (`src/flesch.py`).

The Python module defines a class `Flesch` that, given a file and a
language code (`'en'` or `'de'`), extracts words with the regex
`[a-zA-ZäöüÄÖÜß]+`, counts sentences with the regex
`[A-ZÄÖÜ].*?([.:!?]\s)` (a Python regex in which `.` matches any
character except a newline and `\s` matches Unicode whitespace),
counts syllables through an external hyphenation oracle, and computes a
reading-ease score from the cached counts.

The embedding below models the document as a `List Char`, the
hyphenation library as an oracle parameter of type
`List Char → List (List Char)`, file input as an `Except` value, and
Python floats as exact rationals with Python's round-half-to-even.
The two regex scanners are written with an explicit fuel argument
(initialised to the text length, which the adequacy lemmas show is
enough) so that every definition evaluates by kernel reduction.
-/

/-! ## Character classes used by the two regular expressions -/

/-- Characters matched by the word regex `[a-zA-ZäöüÄÖÜß]+`. -/
def isWordChar (c : Char) : Bool :=
  ('a' ≤ c && c ≤ 'z') || ('A' ≤ c && c ≤ 'Z') ||
  c = 'ä' || c = 'ö' || c = 'ü' || c = 'Ä' || c = 'Ö' || c = 'Ü' || c = 'ß'

/-- Characters matched by the sentence-start class `[A-ZÄÖÜ]`. -/
def isSentUpper (c : Char) : Bool :=
  ('A' ≤ c && c ≤ 'Z') || c = 'Ä' || c = 'Ö' || c = 'Ü'

/-- Characters matched by the terminal-punctuation class `[.:!?]`. -/
def isTermPunct (c : Char) : Bool :=
  c = '.' || c = ':' || c = '!' || c = '?'

/-- Characters matched by Python's `\s` on `str` patterns: the ASCII
whitespace characters together with the Unicode whitespace code points. -/
def isPySpace (c : Char) : Bool :=
  c = ' ' || c = '\t' || c = '\n' || c = '\x0b' || c = '\x0c' || c = '\r' ||
  c = '\x1c' || c = '\x1d' || c = '\x1e' || c = '\x1f' ||
  c = '\x85' || c = '\xa0' || c = '\u1680' ||
  ('\u2000' ≤ c && c ≤ '\u200a') ||
  c = '\u2028' || c = '\u2029' || c = '\u202f' || c = '\u205f' || c = '\u3000'

/-! ## Word extraction: `re.findall(r'[a-zA-ZäöüÄÖÜß]+', content)`

`re.findall` with this pattern returns the maximal runs of word
characters, left to right.  The scanner walks the text; on a word
character it takes the whole maximal run and continues after it. -/

/-- Fuel-indexed scanner for `re.findall(r'[a-zA-ZäöüÄÖÜß]+', content)`. -/
def findWordsAux : Nat → List Char → List (List Char)
  | 0, _ => []
  | _, [] => []
  | fuel + 1, c :: rest =>
    if isWordChar c then
      (c :: rest.takeWhile isWordChar) :: findWordsAux fuel (rest.dropWhile isWordChar)
    else
      findWordsAux fuel rest

/-- `re.findall(r'[a-zA-ZäöüÄÖÜß]+', content)`: the ordered list of
maximal runs of word characters (`Flesch.__init__`, line 28). -/
def findWords (content : List Char) : List (List Char) :=
  findWordsAux content.length content

/-! ## Sentence counting: `re.findall(r'[A-ZÄÖÜ].*?([.:!?]\s)', content)`

A match consumes one uppercase letter, then (non-greedily) a run of
non-newline characters, then a terminal punctuation mark and one
whitespace character.  `findall` scans left to right and resumes after
each match.  `matchTail` models the part of the pattern after the
uppercase letter: it returns the text remaining after the shortest
completion, or `none` when the attempt fails (a newline is reached, or
the text ends, before any `[.:!?]\s` pair). -/

/-- Attempt the `.*?([.:!?]\s)` part of the sentence regex at the start of
the text; on success return the text after the consumed whitespace. -/
def matchTail : List Char → Option (List Char)
  | [] => none
  | [_] => none
  | c :: d :: rest =>
    if isTermPunct c && isPySpace d then some rest
    else if c = '\n' then none
    else matchTail (d :: rest)

/-- Fuel-indexed scanner for the sentence regex: at an uppercase letter
attempt the non-greedy completion; on success count one match and resume
after it, otherwise move one character forward. -/
def findallSentencesAux : Nat → List Char → Nat
  | 0, _ => 0
  | _, [] => 0
  | fuel + 1, c :: rest =>
    if isSentUpper c then
      match matchTail rest with
      | some rest2 => findallSentencesAux fuel rest2 + 1
      | none => findallSentencesAux fuel rest
    else
      findallSentencesAux fuel rest

/-- `len(re.findall(r'[A-ZÄÖÜ].*?([.:!?]\s)', content))`
(`Flesch.count_sentences`, lines 37-43). -/
def count_sentences (content : List Char) : Nat :=
  findallSentencesAux content.length content

/-! ## Syllable counting -/

/-- `Flesch.count_word_syllables` (lines 45-55): the number of syllables
of one word is the length of the oracle's syllabification, except that an
empty syllabification counts as one syllable. -/
def count_word_syllables (syllables : List Char → List (List Char))
    (word : List Char) : Nat :=
  let n_syllables := (syllables word).length
  if n_syllables = 0 then 1 else n_syllables

/-- `Flesch.count_syllables` (lines 57-62): sum of the per-word syllable
counts over all words of the document. -/
def count_syllables (syllables : List Char → List (List Char))
    (words : List (List Char)) : Nat :=
  (words.map (count_word_syllables syllables)).sum

/-! ## The analyzer object -/

/-- The error classes the Python code can raise: the explicit language
check in `__init__`, a failing `open`/`read`, and `ZeroDivisionError`
from the two divisions in `calc_reading_ease`. -/
inductive PyError
  | unsupportedLanguage
  | fileAccessError
  | zeroDivisionError
deriving DecidableEq

/-- The `Flesch` object after `__init__` (lines 15-32): the language tag,
the hyphenation oracle bound to the chosen locale, the file content, the
extracted word list, and the three cached counts. -/
structure Flesch where
  lang : String
  hyphenation : List Char → List (List Char)
  content : List Char
  words : List (List Char)
  n_sentences : Nat
  n_words : Nat
  n_syllables : Nat

/-- Lines 28-32 of `__init__`: extract the word list and derive the three
cached counts from the content. -/
def mkCore (lang : String) (syllables : List Char → List (List Char))
    (content : List Char) : Flesch :=
  let words := findWords content
  { lang := lang
    hyphenation := syllables
    content := content
    words := words
    n_sentences := count_sentences content
    n_words := words.length
    n_syllables := count_syllables syllables words }

/-- `Flesch.__init__` (lines 15-32).  The hyphenation library is an
oracle keyed by locale (`de_DE`, `en_US`); the file argument stands for
the result of `open(filename, 'r').read()` and is consulted only after
the language check has selected a locale. -/
def flesch_init (lang : String) (hyph : String → List Char → List (List Char))
    (file : Except PyError (List Char)) : Except PyError Flesch :=
  if lang = "de" then do
    let content ← file
    pure (mkCore lang (hyph "de_DE") content)
  else if lang = "en" then do
    let content ← file
    pure (mkCore lang (hyph "en_US") content)
  else
    .error .unsupportedLanguage

/-- `Flesch.count_words` (lines 34-35): the length of the cached word
list. -/
def Flesch.count_words (f : Flesch) : Nat :=
  f.words.length

/-! ## The score

Python floats are modelled as exact rationals; `round` is Python's
round-half-to-even, and the trailing `int(...)` in the source is the
identity on the integer that `round` already returns. -/

/-- Floor of a rational: its denominator is positive, so Euclidean
division of the numerator by the denominator is floor division. -/
def ratFloor (q : ℚ) : ℤ :=
  q.num.ediv (q.den : ℤ)

/-- Python's built-in `round`: nearest integer, ties to even.  Stated on
the numerator and denominator: with `n = ⌊q⌋` the fractional part of `q`
is `(q.num - n * q.den) / q.den`, so comparing it with `1/2` is comparing
`2 * (q.num - n * q.den)` with `q.den`. -/
def pyRound (q : ℚ) : ℤ :=
  let n := ratFloor q
  let r := q.num - n * (q.den : ℤ)
  if 2 * r < (q.den : ℤ) then n
  else if (q.den : ℤ) < 2 * r then n + 1
  else if n % 2 = 0 then n else n + 1

/-- `Flesch.calc_reading_ease_en` (lines 74-82):
`int(round(206.835 - 1.015 * asl - 84.6 * asw))`. -/
def calc_reading_ease_en (asl asw : ℚ) : ℤ :=
  pyRound (206.835 - 1.015 * asl - 84.6 * asw)

/-- `Flesch.calc_reading_ease_de` (lines 84-92), Amstad's German variant:
`int(round(180. - asl - 58.5 * asw))`. -/
def calc_reading_ease_de (asl asw : ℚ) : ℤ :=
  pyRound (180 - asl - 58.5 * asw)

/-- `Flesch.calc_reading_ease` (lines 64-72).  Python evaluates
`asl = n_words / n_sentences` first, raising `ZeroDivisionError` when the
sentence count is zero, then `asw = n_syllables / n_words`, raising when
the word count is zero; with both counts positive it dispatches on the
language tag and falls through to `None` for any other tag (which
`__init__` rules out). -/
def calc_reading_ease (f : Flesch) : Except PyError (Option ℤ) :=
  if f.n_sentences = 0 then .error .zeroDivisionError
  else if f.n_words = 0 then .error .zeroDivisionError
  else
    let asl : ℚ := (f.n_words : ℚ) / (f.n_sentences : ℚ)
    let asw : ℚ := (f.n_syllables : ℚ) / (f.n_words : ℚ)
    if f.lang = "de" then .ok (some (calc_reading_ease_de asl asw))
    else if f.lang = "en" then .ok (some (calc_reading_ease_en asl asw))
    else .ok none

/-! ## The word extractor as the specification words it (§4.1)

The specification describes a word as "a maximal run of one or more
characters" of the letter class: equivalently, split the text at every
non-word character and keep the non-empty pieces. -/

/-- Word extraction as the specification words it: the non-empty pieces
left after splitting the text at every non-word character. -/
def specWords (content : List Char) : List (List Char) :=
  (content.splitOnP (fun c => !isWordChar c)).filter (fun w => !w.isEmpty)

/-! ## The sentence heuristic as the claim words it, and as amended

The claim describes a sentence match as an uppercase letter followed
non-greedily by characters up to the nearest terminal punctuation mark
that is itself followed by a whitespace character, matches taken
non-overlapping and left to right.  `claimTail` reads "any characters"
literally; `amendedTail` restricts the skipped characters to
non-newlines, which is what the Python `.` in the source regex matches.
The nearest terminator is located by searching the consecutive-character
pairs for the first (punctuation, whitespace) pair. -/

/-- A (punctuation, whitespace) pair of consecutive characters: a
sentence terminator of the heuristic. -/
def isSentEnd (cd : Char × Char) : Bool :=
  isTermPunct cd.1 && isPySpace cd.2

/-- The completion step as the claim words it: skip any characters to the
nearest terminator pair and return the text after it. -/
def claimTail (s : List Char) : Option (List Char) :=
  match (s.zip s.tail).findIdx? isSentEnd with
  | some j => some (s.drop (j + 2))
  | none => none

/-- The completion step as amended: the characters skipped on the way to
the nearest terminator pair must not include a newline. -/
def amendedTail (s : List Char) : Option (List Char) :=
  match (s.zip s.tail).findIdx? isSentEnd with
  | some j =>
    if (s.take j).all (fun c => c != '\n') then some (s.drop (j + 2)) else none
  | none => none

/-- Fuel-indexed scanner counting the claim's matches: at an uppercase
letter attempt the claimed completion; on success count one match and
resume after it. -/
def claimSentencesAux : Nat → List Char → Nat
  | 0, _ => 0
  | _, [] => 0
  | fuel + 1, c :: rest =>
    if isSentUpper c then
      match claimTail rest with
      | some rest2 => claimSentencesAux fuel rest2 + 1
      | none => claimSentencesAux fuel rest
    else
      claimSentencesAux fuel rest

/-- The sentence count the claim predicts, reading "any characters"
literally. -/
def claimSentenceCount (content : List Char) : Nat :=
  claimSentencesAux content.length content

/-- Fuel-indexed scanner counting the amended claim's matches. -/
def amendedSentencesAux : Nat → List Char → Nat
  | 0, _ => 0
  | _, [] => 0
  | fuel + 1, c :: rest =>
    if isSentUpper c then
      match amendedTail rest with
      | some rest2 => amendedSentencesAux fuel rest2 + 1
      | none => amendedSentencesAux fuel rest
    else
      amendedSentencesAux fuel rest

/-- The sentence count under the amended claim: an uppercase letter, then
non-greedily any non-newline characters, then a terminal punctuation mark
followed by a whitespace character. -/
def amendedSentenceCount (content : List Char) : Nat :=
  amendedSentencesAux content.length content

theorem findWordsAux_nil (fuel : Nat) : findWordsAux fuel [] = [] := by
  cases fuel <;> rfl

/-- The fuel argument of `findWordsAux` is irrelevant once it covers the
length of the text. -/
theorem findWordsAux_fuel (fuel₁ fuel₂ : Nat) (l : List Char)
    (h₁ : l.length ≤ fuel₁) (h₂ : l.length ≤ fuel₂) :
    findWordsAux fuel₁ l = findWordsAux fuel₂ l := by
  induction fuel₁ generalizing fuel₂ l with
  | zero =>
    cases l with
    | nil => rw [findWordsAux_nil, findWordsAux_nil]
    | cons c rest => simp at h₁
  | succ f₁ ih =>
    cases l with
    | nil => rw [findWordsAux_nil, findWordsAux_nil]
    | cons c rest =>
      cases fuel₂ with
      | zero => simp at h₂
      | succ f₂ =>
        simp only [List.length_cons] at h₁ h₂
        have h₁' : rest.length ≤ f₁ := by omega
        have h₂' : rest.length ≤ f₂ := by omega
        simp only [findWordsAux]
        by_cases hc : isWordChar c
        · rw [if_pos hc, if_pos hc]
          have hd : (rest.dropWhile isWordChar).length ≤ rest.length :=
            (List.dropWhile_sublist isWordChar).length_le
          exact congrArg _ (ih f₂ _ (le_trans hd h₁') (le_trans hd h₂'))
        · rw [if_neg hc, if_neg hc]
          exact ih f₂ rest h₁' h₂'

theorem findWords_cons_pos (c : Char) (rest : List Char) (hc : isWordChar c) :
    findWords (c :: rest) =
      (c :: rest.takeWhile isWordChar) :: findWords (rest.dropWhile isWordChar) := by
  have hd : (rest.dropWhile isWordChar).length ≤ rest.length :=
    (List.dropWhile_sublist isWordChar).length_le
  simp only [findWords, List.length_cons, findWordsAux]
  rw [if_pos hc]
  exact congrArg _ (findWordsAux_fuel rest.length (rest.dropWhile isWordChar).length _ hd le_rfl)

theorem findWords_cons_neg (c : Char) (rest : List Char) (hc : ¬ isWordChar c) :
    findWords (c :: rest) = findWords rest := by
  simp only [findWords, List.length_cons, findWordsAux]
  rw [if_neg hc]

theorem matchTail_length {l r : List Char} (h : matchTail l = some r) :
    r.length + 2 ≤ l.length := by
  induction l with
  | nil => simp [matchTail] at h
  | cons c t ih =>
    match t with
    | [] => simp [matchTail] at h
    | d :: rest =>
      rw [matchTail] at h
      split at h
      · cases h; simp
      · split at h
        · cases h
        · have := ih h
          simpa using Nat.le_succ_of_le this

theorem findallSentencesAux_nil (fuel : Nat) : findallSentencesAux fuel [] = 0 := by
  cases fuel <;> rfl

/-- The fuel argument of `findallSentencesAux` is irrelevant once it
covers the length of the text. -/
theorem findallSentencesAux_fuel (fuel₁ fuel₂ : Nat) (l : List Char)
    (h₁ : l.length ≤ fuel₁) (h₂ : l.length ≤ fuel₂) :
    findallSentencesAux fuel₁ l = findallSentencesAux fuel₂ l := by
  induction fuel₁ generalizing fuel₂ l with
  | zero =>
    cases l with
    | nil => rw [findallSentencesAux_nil, findallSentencesAux_nil]
    | cons c rest => simp at h₁
  | succ f₁ ih =>
    cases l with
    | nil => rw [findallSentencesAux_nil, findallSentencesAux_nil]
    | cons c rest =>
      cases fuel₂ with
      | zero => simp at h₂
      | succ f₂ =>
        simp only [List.length_cons] at h₁ h₂
        have h₁' : rest.length ≤ f₁ := by omega
        have h₂' : rest.length ≤ f₂ := by omega
        simp only [findallSentencesAux]
        by_cases hc : isSentUpper c
        · rw [if_pos hc, if_pos hc]
          cases hm : matchTail rest with
          | some rest2 =>
            have hr : rest2.length ≤ rest.length := by
              have := matchTail_length hm
              omega
            exact congrArg (· + 1) (ih f₂ rest2 (le_trans hr h₁') (le_trans hr h₂'))
          | none =>
            exact ih f₂ rest h₁' h₂'
        · rw [if_neg hc, if_neg hc]
          exact ih f₂ rest h₁' h₂'

/-- Unfolding `count_sentences` at an uppercase letter whose non-greedy
completion succeeds: one match, resume after the consumed whitespace. -/
theorem count_sentences_cons_match {c : Char} {rest rest2 : List Char}
    (hc : isSentUpper c) (hm : matchTail rest = some rest2) :
    count_sentences (c :: rest) = count_sentences rest2 + 1 := by
  have hr : rest2.length ≤ rest.length := by
    have := matchTail_length hm
    omega
  simp only [count_sentences, List.length_cons, findallSentencesAux]
  rw [if_pos hc, hm]
  exact congrArg (· + 1) (findallSentencesAux_fuel rest.length rest2.length rest2 hr le_rfl)

/-- Unfolding `count_sentences` at an uppercase letter whose non-greedy
completion fails: no match here, resume at the next character. -/
theorem count_sentences_cons_nomatch {c : Char} {rest : List Char}
    (hc : isSentUpper c) (hm : matchTail rest = none) :
    count_sentences (c :: rest) = count_sentences rest := by
  simp only [count_sentences, List.length_cons, findallSentencesAux]
  rw [if_pos hc, hm]

/-- Unfolding `count_sentences` at a character that cannot start a
sentence. -/
theorem count_sentences_cons_skip {c : Char} {rest : List Char}
    (hc : ¬ isSentUpper c) :
    count_sentences (c :: rest) = count_sentences rest := by
  simp only [count_sentences, List.length_cons, findallSentencesAux]
  rw [if_neg hc]

/-! Sanity checks on the two scanners. -/

example : findWords "The cat sat.".toList =
    ["The".toList, "cat".toList, "sat".toList] := by decide

example : findWords "Über die Brücke.".toList =
    ["Über".toList, "die".toList, "Brücke".toList] := by decide

example : count_sentences "The cat sat. The dog ran fast.".toList = 1 := by decide

example : count_sentences "The cat sat. The dog ran fast. ".toList = 2 := by decide

example : count_sentences "A\n. ".toList = 0 := by decide

/-! Sanity checks on rounding and scoring. -/

example : pyRound ((5 : ℚ)/2) = 2 := by
  simp only [pyRound, ratFloor]
  norm_num

example : pyRound (-(5 : ℚ)/2) = -2 := by
  simp only [pyRound, ratFloor]
  norm_num

example : pyRound ((7 : ℚ)/2) = 4 := by
  simp only [pyRound, ratFloor]
  norm_num

example : pyRound ((13 : ℚ)/5) = 3 := by
  simp only [pyRound, ratFloor]
  norm_num

example : calc_reading_ease_en 0 0 = 207 := by
  simp only [calc_reading_ease_en, pyRound, ratFloor]
  norm_num

example : calc_reading_ease_de 0 0 = 180 := by
  simp only [calc_reading_ease_de, pyRound, ratFloor]
  norm_num

theorem splitOnP_word_structure (l : List Char) :
    l.splitOnP (fun c => !isWordChar c) =
      l.takeWhile isWordChar ::
        (match l.dropWhile isWordChar with
          | [] => []
          | _ :: t => t.splitOnP (fun c => !isWordChar c)) := by
  induction l with
  | nil => simp [List.splitOnP_nil]
  | cons a l ih =>
    rw [List.splitOnP_cons]
    by_cases ha : isWordChar a
    · rw [if_neg (by simp [ha]), ih]
      simp [List.takeWhile_cons_of_pos ha, List.dropWhile_cons_of_pos ha]
    · rw [if_pos (by simp [ha])]
      simp [List.takeWhile_cons_of_neg ha, List.dropWhile_cons_of_neg ha]

theorem dropWhile_head_not {p : Char → Bool} {l : List Char} {d : Char}
    {t : List Char} (h : l.dropWhile p = d :: t) : ¬ p d := by
  induction l with
  | nil => cases h
  | cons a l ih =>
    by_cases ha : p a
    · rw [List.dropWhile_cons_of_pos ha] at h
      exact ih h
    · rw [List.dropWhile_cons_of_neg ha] at h
      cases h
      exact ha

theorem specWords_cons_neg (c : Char) (rest : List Char) (hc : ¬ isWordChar c) :
    specWords (c :: rest) = specWords rest := by
  simp only [specWords, List.splitOnP_cons]
  rw [if_pos (by simp [hc])]
  simp [List.filter_cons]

theorem specWords_cons_pos (c : Char) (rest : List Char) (hc : isWordChar c) :
    specWords (c :: rest) =
      (c :: rest.takeWhile isWordChar) :: specWords (rest.dropWhile isWordChar) := by
  cases hdw : rest.dropWhile isWordChar with
  | nil =>
    simp only [specWords, List.splitOnP_cons]
    rw [if_neg (by simp [hc]), splitOnP_word_structure rest, hdw]
    simp [List.splitOnP_nil, List.filter_cons]
  | cons d t =>
    have hd : ¬ isWordChar d := dropWhile_head_not hdw
    simp only [specWords, List.splitOnP_cons]
    rw [if_neg (by simp [hc]), splitOnP_word_structure rest, hdw]
    simp [hd, List.filter_cons]

theorem findWords_eq_specWords_aux (n : Nat) :
    ∀ l : List Char, l.length ≤ n → findWords l = specWords l := by
  induction n with
  | zero =>
    intro l h
    have hl : l = [] := List.length_eq_zero.mp (Nat.le_zero.mp h)
    subst hl
    simp [findWords, findWordsAux, specWords, List.splitOnP_nil]
  | succ n ih =>
    intro l h
    cases l with
    | nil => simp [findWords, findWordsAux, specWords, List.splitOnP_nil]
    | cons c rest =>
      simp only [List.length_cons] at h
      by_cases hc : isWordChar c
      · rw [findWords_cons_pos c rest hc, specWords_cons_pos c rest hc]
        have hd : (rest.dropWhile isWordChar).length ≤ rest.length :=
          (List.dropWhile_sublist isWordChar).length_le
        rw [ih _ (by omega)]
      · rw [findWords_cons_neg c rest hc, specWords_cons_neg c rest hc]
        exact ih rest (by omega)

theorem findWords_eq_specWords (content : List Char) :
    findWords content = specWords content :=
  findWords_eq_specWords_aux content.length content le_rfl

theorem findWords_sound (n : Nat) :
    ∀ l : List Char, l.length ≤ n →
      ∀ w ∈ findWords l, w ≠ [] ∧ w.all isWordChar := by
  induction n with
  | zero =>
    intro l h w hw
    have hl : l = [] := List.length_eq_zero.mp (Nat.le_zero.mp h)
    subst hl
    simp [findWords, findWordsAux] at hw
  | succ n ih =>
    intro l h w hw
    cases l with
    | nil => simp [findWords, findWordsAux] at hw
    | cons c rest =>
      simp only [List.length_cons] at h
      by_cases hc : isWordChar c
      · rw [findWords_cons_pos c rest hc] at hw
        rcases List.mem_cons.mp hw with rfl | hw
        · refine ⟨by simp, ?_⟩
          simp [List.all_cons, hc, List.all_takeWhile]
        · have hd : (rest.dropWhile isWordChar).length ≤ rest.length :=
            (List.dropWhile_sublist isWordChar).length_le
          exact ih _ (by omega) w hw
      · rw [findWords_cons_neg c rest hc] at hw
        exact ih rest (by omega) w hw

/-- The operational completion step of the source regex agrees with the
amended declarative one everywhere. -/
theorem matchTail_eq_amendedTail (l : List Char) : matchTail l = amendedTail l := by
  induction l with
  | nil => rfl
  | cons c t ih =>
    cases t with
    | nil => rfl
    | cons d rest =>
      rw [matchTail]
      by_cases hse : isTermPunct c && isPySpace d
      · rw [if_pos hse]
        have hse' : isSentEnd (c, d) = true := hse
        simp [amendedTail, List.zip_cons_cons, hse']
      · rw [if_neg hse]
        have hse' : isSentEnd (c, d) = false := by
          simpa [isSentEnd] using hse
        by_cases hnl : c = '\n'
        · rw [if_pos hnl]
          subst hnl
          simp only [amendedTail, List.tail_cons, List.zip_cons_cons, List.findIdx?_cons,
            hse', Bool.false_eq_true, if_false, List.findIdx?_start_succ]
          cases hfi : ((d :: rest).zip rest).findIdx? isSentEnd with
          | some j => simp [hfi]
          | none => simp [hfi]
        · rw [if_neg hnl, ih]
          simp only [amendedTail, List.tail_cons, List.zip_cons_cons, List.findIdx?_cons,
            hse', Bool.false_eq_true, if_false, List.findIdx?_start_succ]
          cases hfi : ((d :: rest).zip rest).findIdx? isSentEnd with
          | some j => simp [hfi, hnl, List.take_succ_cons, List.drop_succ_cons]
          | none => simp [hfi]

/-- The two fuel-indexed sentence scanners agree at every fuel. -/
theorem findallSentencesAux_eq_amended (fuel : Nat) :
    ∀ l : List Char, findallSentencesAux fuel l = amendedSentencesAux fuel l := by
  induction fuel with
  | zero => intro l; cases l <;> rfl
  | succ fuel ih =>
    intro l
    cases l with
    | nil => rfl
    | cons c rest =>
      simp only [findallSentencesAux, amendedSentencesAux, matchTail_eq_amendedTail]
      by_cases hc : isSentUpper c
      · rw [if_pos hc, if_pos hc]
        cases ham : amendedTail rest with
        | some rest2 => simp [ham, ih]
        | none => simp [ham, ih]
      · rw [if_neg hc, if_neg hc]
        exact ih rest

/-- The source regex count equals the amended claim's count. -/
theorem count_sentences_eq_amendedCount (content : List Char) :
    count_sentences content = amendedSentenceCount content :=
  findallSentencesAux_eq_amended content.length content

/-! Sanity checks on the claimed and amended counters. -/

example : claimSentenceCount "A\n. ".toList = 1 := by decide

example : amendedSentenceCount "A\n. ".toList = 0 := by decide

example : amendedSentenceCount "The cat sat. The dog ran fast. ".toList = 2 := by decide

/-! ## Shared helper lemmas for the claims -/

theorem calc_error_of_degenerate (f : Flesch)
    (h : f.n_sentences = 0 ∨ f.n_words = 0) :
    calc_reading_ease f = .error .zeroDivisionError := by
  rcases h with h | h
  · simp [calc_reading_ease, h]
  · by_cases hs : f.n_sentences = 0 <;> simp [calc_reading_ease, h, hs]

theorem one_le_count_word_syllables (syll : List Char → List (List Char))
    (w : List Char) : 1 ≤ count_word_syllables syll w := by
  simp only [count_word_syllables]
  split
  · exact le_rfl
  · omega

theorem length_le_count_syllables (syll : List Char → List (List Char))
    (ws : List (List Char)) : ws.length ≤ count_syllables syll ws := by
  induction ws with
  | nil => simp [count_syllables]
  | cons w t ih =>
    have h1 := one_le_count_word_syllables syll w
    simp only [count_syllables, List.map_cons, List.sum_cons, List.length_cons]
    simp only [count_syllables] at ih
    omega

/-! ## The claims -/

/-- C1, counterexample: on the document "A\n. " the source regex counts
no sentence, because the non-greedy `.*?` cannot cross the newline, while
the claim's reading — "any characters" up to the terminator — counts
one. -/
theorem sentence_count_claim_counterexample :
    count_sentences "A\n. ".toList ≠ claimSentenceCount "A\n. ".toList := by
  decide

/-- C1, amended: for every document the sentence count equals the number
of non-overlapping, left-to-right matches of the heuristic pattern — an
uppercase letter (including ÄÖÜ), then non-greedily any characters other
than newline, then a terminal punctuation mark (period, colon,
exclamation or question mark) itself followed by a whitespace character.
In particular "Abc. Def.", whose final terminal punctuation has no
trailing whitespace, counts one sentence, one fewer than the same
document with a trailing space. -/
theorem sentence_count_matches_heuristic :
    (∀ content : List Char, count_sentences content = amendedSentenceCount content) ∧
    count_sentences "Abc. Def.".toList = 1 ∧
    count_sentences "Abc. Def. ".toList = 2 :=
  ⟨count_sentences_eq_amendedCount, by decide, by decide⟩

/-- C2: the extracted word list is exactly the ordered sequence of
maximal runs of letters from [a-zA-Z] plus äöüÄÖÜß; every extracted word
is non-empty and consists of word characters only (so digits,
punctuation, symbols and whitespace never occur in a word), and the
analyzer caches the words exactly as extracted, with no lowercasing or
normalization, for the syllable lookups. -/
theorem word_extraction_maximal_runs (content : List Char) :
    findWords content = specWords content ∧
    (∀ w ∈ findWords content, w ≠ [] ∧ w.all isWordChar) ∧
    ∀ (lang : String) (syll : List Char → List (List Char)),
      (mkCore lang syll content).words = findWords content :=
  ⟨findWords_eq_specWords content, findWords_sound content.length content le_rfl,
    fun _ _ => rfl⟩

/-- C2 witness at the specification's umlaut scenario: the equality of
the two extractors on "Über die Brücke.", and the extracted word "Über"
is a single non-empty all-letter word. -/
theorem word_extraction_maximal_runs_witness :
    findWords "Über die Brücke.".toList = specWords "Über die Brücke.".toList ∧
    ("Über".toList ≠ [] ∧ "Über".toList.all isWordChar) :=
  ⟨(word_extraction_maximal_runs "Über die Brücke.".toList).1,
    (word_extraction_maximal_runs "Über die Brücke.".toList).2.1 "Über".toList (by decide)⟩

/-- C3: a word whose syllabification comes back empty counts as exactly
one syllable, any other word counts as the length of the returned
sequence, and the document total — also as cached at construction — is
the sum of the per-word counts over the extracted words. -/
theorem syllable_count_contract (syll : List Char → List (List Char))
    (w : List Char) (ws : List (List Char)) (content : List Char) :
    (syll w = [] → count_word_syllables syll w = 1) ∧
    (syll w ≠ [] → count_word_syllables syll w = (syll w).length) ∧
    count_syllables syll ws = (ws.map (count_word_syllables syll)).sum ∧
    ∀ lang : String, (mkCore lang syll content).n_syllables =
      ((findWords content).map (count_word_syllables syll)).sum := by
  refine ⟨?_, ?_, rfl, fun lang => rfl⟩
  · intro h
    simp [count_word_syllables, h]
  · intro h
    have hne : (syll w).length ≠ 0 := by simpa [List.length_eq_zero] using h
    simp [count_word_syllables, hne]

/-- C3 witness: under a sample oracle that syllabifies "cat" to nothing
and every other word into two parts, "cat" counts one syllable and
"hallo" counts two. -/
theorem syllable_count_contract_witness :
    count_word_syllables
      (fun w => if w = "cat".toList then [] else ["hal".toList, "lo".toList])
      "cat".toList = 1 ∧
    count_word_syllables
      (fun w => if w = "cat".toList then [] else ["hal".toList, "lo".toList])
      "hallo".toList = 2 := by
  constructor
  · exact (syllable_count_contract
      (fun w => if w = "cat".toList then [] else ["hal".toList, "lo".toList])
      "cat".toList [] []).1 (by decide)
  · exact ((syllable_count_contract
      (fun w => if w = "cat".toList then [] else ["hal".toList, "lo".toList])
      "hallo".toList [] []).2.1 (by decide)).trans (by decide)

/-- C4: an analyzer with zero sentences or zero words makes the score
computation fail with the division-by-zero error — it never returns a
numeric score. -/
theorem degenerate_score_division_error (f : Flesch)
    (h : f.n_sentences = 0 ∨ f.n_words = 0) :
    calc_reading_ease f = .error .zeroDivisionError :=
  calc_error_of_degenerate f h

/-- C4 witness: the analyzer built from the empty document. -/
theorem degenerate_score_division_error_witness :
    calc_reading_ease (mkCore "de" (fun _ => []) []) = .error .zeroDivisionError :=
  degenerate_score_division_error (mkCore "de" (fun _ => []) []) (Or.inl (by decide))

/-- C5: for every language code other than 'en' and 'de', construction
fails with the unsupported-language error whatever the file argument
holds — the outcome is the same for a readable and for an unreadable
file, so the file is never opened or read. -/
theorem unsupported_language_rejected (lang : String)
    (hyph : String → List Char → List (List Char))
    (file : Except PyError (List Char))
    (hde : lang ≠ "de") (hen : lang ≠ "en") :
    flesch_init lang hyph file = .error .unsupportedLanguage := by
  simp [flesch_init, hde, hen]

/-- C5 witness: language "fr" with a file whose read would fail: the
error reported is still the unsupported-language one. -/
theorem unsupported_language_rejected_witness :
    flesch_init "fr" (fun _ _ => []) (.error .fileAccessError) =
      .error .unsupportedLanguage :=
  unsupported_language_rejected "fr" (fun _ _ => []) (.error .fileAccessError)
    (by decide) (by decide)

/-- C6: with at least one sentence and one word the score is the
language-selected formula applied to asl = word count / sentence count
and asw = syllable count / word count, rounded to an integer:
round(206.835 - 1.015*asl - 84.6*asw) for English and
round(180 - asl - 58.5*asw) for German. -/
theorem reading_ease_formula (f : Flesch)
    (hs : 1 ≤ f.n_sentences) (hw : 1 ≤ f.n_words) :
    (f.lang = "en" → calc_reading_ease f =
      .ok (some (pyRound (206.835 - 1.015 * ((f.n_words : ℚ) / (f.n_sentences : ℚ)) -
        84.6 * ((f.n_syllables : ℚ) / (f.n_words : ℚ)))))) ∧
    (f.lang = "de" → calc_reading_ease f =
      .ok (some (pyRound (180 - ((f.n_words : ℚ) / (f.n_sentences : ℚ)) -
        58.5 * ((f.n_syllables : ℚ) / (f.n_words : ℚ)))))) := by
  have hs' : f.n_sentences ≠ 0 := by omega
  have hw' : f.n_words ≠ 0 := by omega
  constructor
  · intro hlang
    simp [calc_reading_ease, hs', hw', hlang, calc_reading_ease_en,
      show ("en" : String) ≠ "de" by decide]
  · intro hlang
    simp [calc_reading_ease, hs', hw', hlang, calc_reading_ease_de]

/-- C6 witness: an English analyzer with 2 sentences, 7 words and 9
syllables gets exactly the rounded English formula value. -/
theorem reading_ease_formula_witness :
    calc_reading_ease ⟨"en", fun _ => [], [], [], 2, 7, 9⟩ =
      .ok (some (pyRound (206.835 - 1.015 * (((7 : Nat) : ℚ) / ((2 : Nat) : ℚ)) -
        84.6 * (((9 : Nat) : ℚ) / ((7 : Nat) : ℚ))))) :=
  (reading_ease_formula ⟨"en", fun _ => [], [], [], 2, 7, 9⟩
    (by decide) (by decide)).1 rfl

/-- C7, counterexample: the claimed possibility of a document whose total
syllable count is below its word count is refuted — no oracle and no word
list produce such a total. -/
theorem syllable_word_invariant_counterexample :
    ¬ ∃ (syll : List Char → List (List Char)) (ws : List (List Char)),
      count_syllables syll ws < ws.length := by
  rintro ⟨syll, ws, h⟩
  exact absurd (length_le_count_syllables syll ws) (by omega)

/-- C7, amended: every individual word contributes at least one syllable,
and consequently the invariant syllable count ≥ word count DOES hold for
every word list and every oracle. -/
theorem syllable_count_ge_word_count (syll : List Char → List (List Char))
    (w : List Char) (ws : List (List Char)) :
    1 ≤ count_word_syllables syll w ∧ ws.length ≤ count_syllables syll ws :=
  ⟨one_le_count_word_syllables syll w, length_le_count_syllables syll ws⟩

/-- C8: construction derives the three counts once from the content: the
cached sentence count is the sentence scan of the content, the cached
word count is the length of the cached word list, the cached syllable
count is the syllable total of that list, and the `count_words` query
returns exactly the cached word count (all three are non-negative
integers by type, and nothing in the API mutates them). -/
theorem counts_cached_once (lang : String)
    (syll : List Char → List (List Char)) (content : List Char) :
    (mkCore lang syll content).n_sentences = count_sentences content ∧
    (mkCore lang syll content).n_words = (mkCore lang syll content).words.length ∧
    (mkCore lang syll content).n_syllables =
      count_syllables syll (mkCore lang syll content).words ∧
    (mkCore lang syll content).count_words = (mkCore lang syll content).n_words :=
  ⟨rfl, rfl, rfl, rfl⟩

/-- C9: the score is a pure function of the cached counts and the
language tag: two analyzers that agree on those four values — whatever
their content, word list or hyphenation oracle — get identical results,
so recomputing the score on the same analyzer yields the same value. -/
theorem score_pure_function (f g : Flesch) (hlang : f.lang = g.lang)
    (hs : f.n_sentences = g.n_sentences) (hw : f.n_words = g.n_words)
    (hy : f.n_syllables = g.n_syllables) :
    calc_reading_ease f = calc_reading_ease g := by
  simp only [calc_reading_ease, hlang, hs, hw, hy]

/-- C9 witness: two analyzers with the same language and counts but
different content, word lists and oracles score identically. -/
theorem score_pure_function_witness :
    calc_reading_ease ⟨"de", fun _ => [], "Xy. ".toList, ["Xy".toList], 1, 1, 1⟩ =
      calc_reading_ease ⟨"de", fun w => [w], [], [], 1, 1, 1⟩ :=
  score_pure_function ⟨"de", fun _ => [], "Xy. ".toList, ["Xy".toList], 1, 1, 1⟩
    ⟨"de", fun w => [w], [], [], 1, 1, 1⟩ rfl rfl rfl rfl

/-- C10: with a supported language, construction on a degenerate document
(no word match, no sentence match) succeeds; the analyzer's counts are
queryable as 0/0/0 and only the score computation fails, with the
division-by-zero error. -/
theorem degenerate_construction_succeeds (lang : String)
    (hyph : String → List Char → List (List Char)) (content : List Char)
    (hlang : lang = "de" ∨ lang = "en")
    (hw : findWords content = []) (hs : count_sentences content = 0) :
    ∃ f : Flesch, flesch_init lang hyph (.ok content) = .ok f ∧
      f.n_sentences = 0 ∧ f.n_words = 0 ∧ f.n_syllables = 0 ∧
      calc_reading_ease f = .error .zeroDivisionError := by
  rcases hlang with h | h <;> subst h
  · refine ⟨mkCore "de" (hyph "de_DE") content, rfl, hs, ?_, ?_, ?_⟩
    · show (findWords content).length = 0
      rw [hw]
      rfl
    · show count_syllables (hyph "de_DE") (findWords content) = 0
      rw [hw]
      rfl
    · exact calc_error_of_degenerate _ (Or.inl hs)
  · refine ⟨mkCore "en" (hyph "en_US") content, rfl, hs, ?_, ?_, ?_⟩
    · show (findWords content).length = 0
      rw [hw]
      rfl
    · show count_syllables (hyph "en_US") (findWords content) = 0
      rw [hw]
      rfl
    · exact calc_error_of_degenerate _ (Or.inl hs)

/-- C10 witness: the empty document in German. -/
theorem degenerate_construction_succeeds_witness :
    ∃ f : Flesch, flesch_init "de" (fun _ _ => []) (.ok []) = .ok f ∧
      f.n_sentences = 0 ∧ f.n_words = 0 ∧ f.n_syllables = 0 ∧
      calc_reading_ease f = .error .zeroDivisionError :=
  degenerate_construction_succeeds "de" (fun _ _ => []) [] (Or.inl rfl)
    (by decide) (by decide)

end FleschModel
